import Mathlib

/-!
Verification of the quest-board engine (`src/db.py`, `src/app.py`).

Modelling conventions of this shallow embedding:
* Calendar dates are stored in the database as ISO `YYYY-MM-DD` text; here they are
  modelled directly as a `Date` structure (year/month/day).  The `strptime` calls of
  the source, which can only succeed on such well-formed text, become the identity;
  `NULL` / empty-string date columns become `none`.
* Python `date` ordering is chronological, which on civil dates coincides with
  lexicographic ordering of `(year, month, day)`; `dateLt` below is that order.
* Python's `date.weekday()` (Monday = 0) is computed from the standard
  days-from-civil formula (`rataDie`).
* SQLite rows become a `Quest` structure, the table a `List Quest`; `lastrowid` of
  an `AUTOINCREMENT` primary key is modelled as one more than the maximal id.
* Python exceptions (`ValueError`) are modelled with `Except String`; a raised
  exception propagates and no further writes happen.
* `**kwargs` of `update_quest` is modelled as an association list of column name and
  dynamically typed value (`FieldVal`); SQL `SET col = v` on the typed record is
  `setField`, which ignores a value of the wrong type (Python call sites only ever
  pass well-typed values).
-/

deriving instance DecidableEq for Except

/-- A civil calendar date, the model of Python `datetime.date`. -/
structure Date where
  year : Nat
  month : Nat
  day : Nat
deriving DecidableEq, Repr

/-- Gregorian leap-year test, as in Python's calendar. -/
def isLeap (y : Nat) : Bool :=
  (y % 4 == 0 && y % 100 != 0) || y % 400 == 0

/-- Number of days in a month of a given year. -/
def monthLength (y m : Nat) : Nat :=
  if m = 2 then (if isLeap y then 29 else 28)
  else if m = 4 ∨ m = 6 ∨ m = 9 ∨ m = 11 then 30
  else 31

/-- The next calendar day (model of `date + timedelta(days=1)`). -/
def succDay (d : Date) : Date :=
  if d.day < monthLength d.year d.month then ⟨d.year, d.month, d.day + 1⟩
  else if d.month < 12 then ⟨d.year, d.month + 1, 1⟩
  else ⟨d.year + 1, 1, 1⟩

/-- Adding `n` days (model of `date + timedelta(days=n)`). -/
def addDays (d : Date) : Nat → Date
  | 0 => d
  | n + 1 => succDay (addDays d n)

/-- Day count of a civil date (days-from-civil algorithm, shifted so that the
count is a `Nat` for every year ≥ 1). -/
def rataDie (d : Date) : Nat :=
  let y := d.year - (if d.month ≤ 2 then 1 else 0)
  let era := y / 400
  let yoe := y % 400
  let mp := if d.month > 2 then d.month - 3 else d.month + 9
  let doy := (153 * mp + 2) / 5 + (d.day - 1)
  let doe := yoe * 365 + yoe / 4 - yoe / 100 + doy
  era * 146097 + doe

/-- Day of week with Monday = 0, as Python's `date.weekday()`. -/
def weekday (d : Date) : Nat := (rataDie d + 2) % 7

/-- Strict chronological order on dates (Python `<` on `date` objects):
lexicographic on `(year, month, day)`. -/
def dateLt (a b : Date) : Bool :=
  decide (a.year < b.year) ||
    (decide (a.year = b.year) &&
      (decide (a.month < b.month) ||
        (decide (a.month = b.month) && decide (a.day < b.day))))

/-- `app.py::calc_exp`: reward score from priority and estimated minutes.
Python `//` is floor division, i.e. `Int.fdiv`. -/
def calc_exp (priority : Int) (estimated_minutes : Int) : Int :=
  let base_exp := priority * 20
  let time_bonus := Int.fdiv estimated_minutes 10
  base_exp + time_bonus

/-- Python `str.strip()` on a character list: drop whitespace on both ends. -/
def pyStripChars (cs : List Char) : List Char :=
  ((cs.dropWhile Char.isWhitespace).reverse.dropWhile Char.isWhitespace).reverse

/-- Python `str.strip()`. -/
def pyStrip (s : String) : String := ⟨pyStripChars s.data⟩

/-- Python `str.split(",")` on a character list: comma-separated groups,
empty input giving one empty group. -/
def split_commas : List Char → List (List Char)
  | [] => [[]]
  | c :: rest =>
    match split_commas rest with
    | [] => [[]]
    | g :: gs => if c = ',' then [] :: g :: gs else (c :: g) :: gs

/-- Python `int()` on a string of decimal digits. -/
def digitsToNat (cs : List Char) : Nat :=
  cs.foldl (fun n c => n * 10 + (c.toNat - 48)) 0

/-- `db.py::process_recurring_quests`, weekday parsing:
`[int(d.strip()) for d in recurrence_weekdays.split(",") if d.strip().isdigit()]`
(Python `isdigit` is true exactly on non-empty all-digit strings). -/
def parse_weekdays (s : String) : List Nat :=
  (split_commas s.data).filterMap (fun tok =>
    let u := pyStripChars tok
    if u ≠ [] ∧ u.all Char.isDigit then some (digitsToNat u) else none)

/-- The seven-step forward scan of the weekly branch of
`db.py::process_recurring_quests`: starting at `d`, return the first of at most
`fuel` consecutive days whose weekday lies in `ws`. -/
def weekly_scan : Nat → Date → List Nat → Option Date
  | 0, _, _ => none
  | fuel + 1, d, ws =>
    if ws.contains (weekday d) then some d else weekly_scan fuel (succDay d) ws

/-- The weekly branch with a non-empty weekday list: scan the seven days after
`base`, falling back to `base + 1 week`. -/
def weekly_next (base : Date) (ws : List Nat) : Date :=
  match weekly_scan 7 (addDays base 1) ws with
  | some d => d
  | none => addDays base 7

/-- The monthly branch of `db.py::process_recurring_quests`:
one month later (December rolls to January of the next year), day clamped
to 28 (`day = min(base_date.day, 28)`), via `date.replace`. -/
def next_monthly (base : Date) : Date :=
  let month := base.month + 1
  let year := base.year
  let ym := if month > 12 then (year + 1, 1) else (year, month)
  let day := min base.day 28
  ⟨ym.1, ym.2, day⟩

/-- The next-occurrence computation of `db.py::process_recurring_quests`
(lines 538-566), as a function of the recurrence type, the raw
`recurrence_weekdays` column and the base date.  Returns `none` when the
recurrence type is not one of `daily`/`weekly`/`monthly` (then the source
code leaves `next_due = None` and skips the quest). -/
def next_occurrence (recurrence_type : String) (recurrence_weekdays : Option String)
    (base_date : Date) : Option Date :=
  if recurrence_type = "daily" then
    some (addDays base_date 1)
  else if recurrence_type = "weekly" then
    match recurrence_weekdays with
    | some s =>
      if s ≠ "" then
        let weekdays := parse_weekdays s
        if weekdays ≠ [] then some (weekly_next base_date weekdays)
        else some (addDays base_date 7)
      else some (addDays base_date 7)
    | none => some (addDays base_date 7)
  else if recurrence_type = "monthly" then
    some (next_monthly base_date)
  else none

/-- A row of the `quests` table (`db.py::init_db`). -/
structure Quest where
  id : Nat
  title : String
  description : String
  status : String
  priority : Int
  due_date : Option Date
  estimated_minutes : Int
  assignee : Option String
  creator : String
  created_at : String
  updated_at : String
  recurrence_type : String
  recurrence_end_date : Option Date
  parent_quest_id : Option Nat
  recurrence_weekdays : Option String
deriving DecidableEq, Repr

/-- The `quests` table. -/
abbrev Store := List Quest

/-- A row of the `comments` table (`db.py::init_db`). -/
structure Comment where
  id : Nat
  quest_id : Nat
  user : String
  content : String
  file_path : Option String
  log_type : String
  created_at : String
deriving DecidableEq, Repr

/-- A dynamically typed column value, as handed to `db.py::update_quest` via
`**kwargs`. -/
inductive FieldVal where
  | vstr : String → FieldVal
  | vint : Int → FieldVal
  | vnat : Nat → FieldVal
  | voptStr : Option String → FieldVal
  | voptNat : Option Nat → FieldVal
  | voptDate : Option Date → FieldVal
deriving DecidableEq, Repr

/-- `UPDATE quests SET name = v` applied to one row: writes the named column
when the value has the column's type, otherwise leaves the row unchanged. -/
def setField (q : Quest) (name : String) (v : FieldVal) : Quest :=
  match name, v with
  | "id", .vnat n => { q with id := n }
  | "title", .vstr s => { q with title := s }
  | "description", .vstr s => { q with description := s }
  | "status", .vstr s => { q with status := s }
  | "priority", .vint n => { q with priority := n }
  | "due_date", .voptDate d => { q with due_date := d }
  | "estimated_minutes", .vint n => { q with estimated_minutes := n }
  | "assignee", .voptStr a => { q with assignee := a }
  | "creator", .vstr s => { q with creator := s }
  | "created_at", .vstr s => { q with created_at := s }
  | "updated_at", .vstr s => { q with updated_at := s }
  | "recurrence_type", .vstr s => { q with recurrence_type := s }
  | "recurrence_end_date", .voptDate d => { q with recurrence_end_date := d }
  | "parent_quest_id", .voptNat p => { q with parent_quest_id := p }
  | "recurrence_weekdays", .voptStr w => { q with recurrence_weekdays := w }
  | _, _ => q

/-- Apply a list of column assignments left to right. -/
def applyFields (q : Quest) (updates : List (String × FieldVal)) : Quest :=
  updates.foldl (fun r kv => setField r kv.fst kv.snd) q

/-- The mutable-field whitelist of `db.py::update_quest`. -/
def allowed_fields : List String :=
  ["title", "description", "status", "priority", "due_date", "assignee",
   "estimated_minutes", "recurrence_type", "recurrence_end_date", "recurrence_weekdays"]

/-- `db.py::update_quest`: keep only whitelisted keys, refuse an empty update,
add `updated_at = now`, and apply the `UPDATE ... WHERE id = quest_id`.
The returned Bool is `rowcount > 0` (a row with that id was matched). -/
def update_quest (st : Store) (quest_id : Nat) (kwargs : List (String × FieldVal))
    (now : String) : Store × Bool :=
  if (kwargs.filter (fun kv => allowed_fields.contains kv.fst)).isEmpty then (st, false)
  else
    (List.map (fun q => if q.id == quest_id then
        applyFields q (kwargs.filter (fun kv => allowed_fields.contains kv.fst) ++
          [("updated_at", FieldVal.vstr now)]) else q) st,
     List.any st (fun q => q.id == quest_id))

/-- `db.py::assign_quest`: `update_quest(quest_id, assignee=assignee if assignee else None)`. -/
def assign_quest (st : Store) (quest_id : Nat) (assignee : String) (now : String) :
    Store × Bool :=
  update_quest st quest_id
    [("assignee", FieldVal.voptStr (if assignee = "" then none else some assignee))] now

/-- The valid status literals of `db.py::change_status`. -/
def valid_statuses : List String := ["Backlog", "In Progress", "Review", "Done"]

/-- `db.py::change_status`: raises `ValueError` on a status outside the valid
set, otherwise delegates to `update_quest`. -/
def change_status (st : Store) (quest_id : Nat) (status : String) (now : String) :
    Except String (Store × Bool) :=
  if valid_statuses.contains status then
    Except.ok (update_quest st quest_id [("status", FieldVal.vstr status)] now)
  else
    Except.error ("無効なステータス: " ++ status)

/-- Fresh `AUTOINCREMENT` primary key for the `quests` table. -/
def next_id (st : Store) : Nat := (st.map Quest.id).foldr max 0 + 1

/-- `db.py::create_quest`: validates title and creator, inserts a row with
status `Backlog` (column default), no assignee, fresh id and timestamps. -/
def create_quest (st : Store) (title description : String) (priority : Int)
    (due_date : Option Date) (creator : String) (estimated_minutes : Int)
    (recurrence_type : String) (recurrence_end_date : Option Date)
    (parent_quest_id : Option Nat) (recurrence_weekdays : Option String)
    (now : String) : Except String (Store × Nat) :=
  if pyStrip title = "" then Except.error "タイトルは必須です"
  else if pyStrip creator = "" then Except.error "作成者は必須です"
  else
    let nid := next_id st
    Except.ok
      (st ++ [{ id := nid, title := pyStrip title, description := description,
                status := "Backlog", priority := priority, due_date := due_date,
                estimated_minutes := estimated_minutes, assignee := none,
                creator := pyStrip creator, created_at := now, updated_at := now,
                recurrence_type := recurrence_type,
                recurrence_end_date := recurrence_end_date,
                parent_quest_id := parent_quest_id,
                recurrence_weekdays := recurrence_weekdays }], nid)

/-- Fresh `AUTOINCREMENT` primary key for the `comments` table. -/
def next_comment_id (cs : List Comment) : Nat := (cs.map Comment.id).foldr max 0 + 1

/-- `db.py::add_comment`: content is mandatory; a user name is mandatory only
for `log_type = "user"` entries. -/
def add_comment (cs : List Comment) (quest_id : Nat) (user content : String)
    (file_path : Option String) (log_type : String) (now : String) :
    Except String (List Comment × Nat) :=
  if pyStrip content = "" then Except.error "コメント内容は必須です"
  else if pyStrip user = "" && log_type == "user" then Except.error "ユーザー名は必須です"
  else
    let nid := next_comment_id cs
    Except.ok
      (cs ++ [{ id := nid, quest_id := quest_id, user := pyStrip user,
                content := pyStrip content, file_path := file_path,
                log_type := log_type, created_at := now }], nid)

/-- The end-of-recurrence cutoff of `db.py::process_recurring_quests`
(line 523): skip when the evaluation date is strictly past the end date. -/
def end_date_passed (red : Option Date) (today : Date) : Bool :=
  match red with
  | some ed => dateLt ed today
  | none => false

/-- The check of line 575: the computed next due date is strictly past the end
date. -/
def next_exceeds_end (red : Option Date) (next_due : Date) : Bool :=
  match red with
  | some ed => dateLt ed next_due
  | none => false

/-- The duplicate-detection count of line 585:
`SELECT COUNT(*) FROM quests WHERE parent_quest_id = ? AND due_date = ?`. -/
def count_parent_due (st : Store) (parent : Nat) (due : Date) : Nat :=
  List.countP (fun q => q.parent_quest_id == some parent && q.due_date == some due) st

/-- The tail of the loop body of `db.py::process_recurring_quests`
(lines 571-605), after a next due date has been computed: end-date check,
duplicate check (`parent_id = quest.parent_quest_id or quest.id`), creation of
the successor and clearing of the source rule. -/
def process_with_next (st : Store) (now : String) (q : Quest) (next_due : Date) :
    Except String Store :=
  if next_exceeds_end q.recurrence_end_date next_due then
    Except.ok (update_quest st q.id [("recurrence_type", FieldVal.vstr "none")] now).1
  else
    if count_parent_due st (q.parent_quest_id.getD q.id) next_due > 0 then Except.ok st
    else
      match create_quest st q.title q.description q.priority (some next_due)
          q.creator q.estimated_minutes q.recurrence_type q.recurrence_end_date
          (some (q.parent_quest_id.getD q.id)) q.recurrence_weekdays now with
      | Except.error e => Except.error e
      | Except.ok (st2, _) =>
        Except.ok (update_quest st2 q.id [("recurrence_type", FieldVal.vstr "none")] now).1

/-- One iteration of the loop body of `db.py::process_recurring_quests`
(lines 514-605) for snapshot row `q` against the current store `st`:
end-of-recurrence cutoff, base date (`due_date` when present, else today),
next-occurrence computation, then the tail above. -/
def process_one_quest (st : Store) (today : Date) (now : String) (q : Quest) :
    Except String Store :=
  if end_date_passed q.recurrence_end_date today then Except.ok st
  else
    match next_occurrence q.recurrence_type q.recurrence_weekdays
        (q.due_date.getD today) with
    | none => Except.ok st
    | some next_due => process_with_next st now q next_due

/-- The `for quest in recurring_quests` loop: a raised exception aborts the
remaining iterations. -/
def run_scheduler_loop (today : Date) (now : String) :
    Store → List Quest → Except String Store
  | st, [] => Except.ok st
  | st, q :: rest =>
    match process_one_quest st today now q with
    | Except.error e => Except.error e
    | Except.ok st2 => run_scheduler_loop today now st2 rest

/-- `db.py::process_recurring_quests`: snapshot the completed recurring quests,
then run the generation loop against the live store. -/
def process_recurring_quests (st : Store) (today : Date) (now : String) :
    Except String Store :=
  let recurring := st.filter (fun q => q.status == "Done" && q.recurrence_type != "none")
  run_scheduler_loop today now st recurring

/-- `app.py::MAX_ACTIVE_QUESTS`. -/
def MAX_ACTIVE_QUESTS : Nat := 3

/-- `app.py::get_active_quest_count`: quests assigned to the user and in
progress. -/
def get_active_quest_count (st : Store) (username : String) : Nat :=
  (st.filter (fun q => q.assignee == some username && q.status == "In Progress")).length

/-- Quests table together with the comments table. -/
structure DBState where
  quests : Store
  comments : List Comment
deriving DecidableEq, Repr

/-- The capacity error shown by `app.py::render_quest_card` on the accept
button (the spec's `CapacityExceeded`). -/
def capacity_error_message : String := "同時受注上限（3件）に達しています"

/-- The accept-button handler of `app.py::render_quest_card` (lines 337-350):
re-read the active count; at or above the cap show the capacity error and
write nothing; otherwise assign, move to `In Progress` and append the system
log entry.  An `Except.error` result models the branch that leaves the
database untouched. -/
def accept_quest (st : DBState) (quest_id : Nat) (username : String) (now : String) :
    Except String DBState :=
  if MAX_ACTIVE_QUESTS ≤ get_active_quest_count st.quests username then
    Except.error capacity_error_message
  else
    match change_status (assign_quest st.quests quest_id username now).1
        quest_id "In Progress" now with
    | Except.error e => Except.error e
    | Except.ok (qs, _) =>
      match add_comment st.comments quest_id "System" "クエストを受注しました" none "system" now with
      | Except.error e => Except.error e
      | Except.ok (cs, _) => Except.ok ⟨qs, cs⟩

/-! ### Date-order lemmas -/

theorem dateLt_iff (a b : Date) :
    dateLt a b = true ↔
      (a.year < b.year ∨ (a.year = b.year ∧
        (a.month < b.month ∨ (a.month = b.month ∧ a.day < b.day)))) := by
  simp [dateLt, Bool.or_eq_true, Bool.and_eq_true, decide_eq_true_eq]

theorem dateLt_trans {a b c : Date} (h1 : dateLt a b = true) (h2 : dateLt b c = true) :
    dateLt a c = true := by
  rw [dateLt_iff] at h1 h2 ⊢
  omega

theorem dateLt_succDay (d : Date) : dateLt d (succDay d) = true := by
  unfold succDay
  split
  · rw [dateLt_iff]; dsimp only; omega
  · split
    · rw [dateLt_iff]; dsimp only; omega
    · rw [dateLt_iff]; dsimp only; omega

theorem addDays_succ_comm (d : Date) (n : Nat) :
    addDays (succDay d) n = succDay (addDays d n) := by
  induction n with
  | zero => rfl
  | succ n ih => simp only [addDays, ih]

theorem addDays_add (d : Date) (a b : Nat) :
    addDays d (a + b) = addDays (addDays d a) b := by
  induction b with
  | zero => rfl
  | succ b ih =>
    rw [Nat.add_succ]
    show succDay (addDays d (a + b)) = succDay (addDays (addDays d a) b)
    rw [ih]

theorem dateLt_addDays (d : Date) (n : Nat) (h : 1 ≤ n) :
    dateLt d (addDays d n) = true := by
  induction n with
  | zero => omega
  | succ n ih =>
    rcases Nat.eq_or_lt_of_le h with h1 | h1
    · have : n = 0 := by omega
      subst this
      simpa [addDays] using dateLt_succDay d
    · exact dateLt_trans (ih (by omega)) (dateLt_succDay (addDays d n))

theorem weekly_scan_mem {ws : List Nat} :
    ∀ {fuel : Nat} {d r : Date}, weekly_scan fuel d ws = some r →
      ∃ k, k < fuel ∧ r = addDays d k := by
  intro fuel
  induction fuel with
  | zero => intro d r h; simp [weekly_scan] at h
  | succ n ih =>
    intro d r h
    unfold weekly_scan at h
    split at h
    · exact ⟨0, by omega, by simpa [addDays] using (Option.some_inj.mp h).symm⟩
    · obtain ⟨k, hk, hr⟩ := ih h
      exact ⟨k + 1, by omega, by rw [hr, addDays_succ_comm]; rfl⟩

theorem dateLt_next_monthly (base : Date) : dateLt base (next_monthly base) = true := by
  by_cases h : base.month + 1 > 12
  · simp only [next_monthly, h, if_pos, dateLt_iff]
    omega
  · simp only [next_monthly, if_neg h, dateLt_iff]
    exact Or.inr ⟨trivial, Or.inl (Nat.lt_succ_self base.month)⟩

/-! ### Planner lemmas -/

theorem next_occurrence_daily (wd : Option String) (base : Date) :
    next_occurrence "daily" wd base = some (addDays base 1) := rfl

theorem next_occurrence_monthly_eq (wd : Option String) (base : Date) :
    next_occurrence "monthly" wd base = some (next_monthly base) := rfl

theorem next_occurrence_weekly_eq (wd : Option String) (base : Date) :
    next_occurrence "weekly" wd base =
      (match wd with
       | some s =>
         if s ≠ "" then
           if parse_weekdays s ≠ [] then some (weekly_next base (parse_weekdays s))
           else some (addDays base 7)
         else some (addDays base 7)
       | none => some (addDays base 7)) := rfl

theorem weekly_scan_eq_find (ws : List Nat) :
    ∀ (fuel : Nat) (d : Date),
      weekly_scan fuel d ws =
        ((List.range fuel).map (fun i => addDays d i)).find?
          (fun x => ws.contains (weekday x)) := by
  intro fuel
  induction fuel with
  | zero => intro d; rfl
  | succ n ih =>
    intro d
    rw [List.range_succ_eq_map]
    simp only [List.map_cons, List.map_map]
    rw [show addDays d 0 = d from rfl]
    set p : Date → Bool := fun x => ws.contains (weekday x) with hp
    by_cases h : p d = true
    · rw [List.find?_cons_of_pos _ h]
      show (if ws.contains (weekday d) then some d else weekly_scan n (succDay d) ws) = some d
      rw [if_pos (show ws.contains (weekday d) = true from h)]
    · rw [List.find?_cons_of_neg _ h]
      show (if ws.contains (weekday d) then some d else weekly_scan n (succDay d) ws) = _
      rw [if_neg (show ¬ ws.contains (weekday d) = true from h), ih (succDay d)]
      apply congrArg
      apply List.map_congr_left
      intro i _
      exact addDays_succ_comm d i

/-- C3: for priorities 1-5 and estimates in 5,10,...,480 the reward is exactly
`priority * 20` plus the floor of `estimatedMinutes / 10` (stated with exact
natural-number arithmetic on the right), and `score(3, 30) = 63`.  The
function is a total function on integers with no failure branch. -/
theorem calc_exp_spec :
    (∀ p m : Nat, 1 ≤ p → p ≤ 5 → 5 ≤ m → m ≤ 480 → m % 5 = 0 →
      calc_exp (p : Int) (m : Int) = ((p * 20 + m / 10 : Nat) : Int)) ∧
    calc_exp 3 30 = 63 := by
  constructor
  · intro p m _ _ _ _ _
    unfold calc_exp
    rw [Int.fdiv_eq_tdiv (by positivity) (by norm_num)]
    rw [Nat.cast_add, Nat.cast_mul, Int.ofNat_tdiv]
    norm_num
  · decide

/-- Witness for `calc_exp_spec` at `priority = 3`, `estimatedMinutes = 30`. -/
theorem calc_exp_spec_witness :
    calc_exp ((3 : Nat) : Int) ((30 : Nat) : Int) = (((3 * 20 + 30 / 10 : Nat)) : Int) :=
  calc_exp_spec.1 3 30 (by decide) (by decide) (by decide) (by decide) (by decide)

/-- C4: for a non-empty weekday list the weekly planner returns the first of
the seven dates after the base date whose weekday is in the list, with
`base + 7 days` as the fallback; with weekdays 0,2,4 the successor of
Thursday 2024-01-11 is Friday 2024-01-12 and the successor of Friday
2024-01-12 is Monday 2024-01-15. -/
theorem weekly_recurrence_spec :
    (∀ (base : Date) (ws : List Nat), ws ≠ [] →
      weekly_next base ws =
        (((List.range 7).map (fun i => addDays base (i + 1))).find?
            (fun d => ws.contains (weekday d))).getD (addDays base 7)) ∧
    next_occurrence "weekly" (some "0,2,4") ⟨2024, 1, 11⟩ = some ⟨2024, 1, 12⟩ ∧
    next_occurrence "weekly" (some "0,2,4") ⟨2024, 1, 12⟩ = some ⟨2024, 1, 15⟩ := by
  refine ⟨?_, by decide, by decide⟩
  intro base ws _
  unfold weekly_next
  rw [weekly_scan_eq_find]
  have hmap : List.map (fun i => addDays (addDays base 1) i) (List.range 7) =
      List.map (fun i => addDays base (i + 1)) (List.range 7) := by
    apply List.map_congr_left
    intro i _
    rw [← addDays_add, Nat.add_comm]
  rw [hmap]
  cases hf : ((List.range 7).map (fun i => addDays base (i + 1))).find?
      (fun d => ws.contains (weekday d)) <;> simp

/-- Witness for `weekly_recurrence_spec`: weekday list 0,2,4 from Thursday
2024-01-11. -/
theorem weekly_recurrence_spec_witness :
    weekly_next ⟨2024, 1, 11⟩ [0, 2, 4] =
      (((List.range 7).map (fun i => addDays ⟨2024, 1, 11⟩ (i + 1))).find?
          (fun d => [0, 2, 4].contains (weekday d))).getD (addDays ⟨2024, 1, 11⟩ 7) :=
  weekly_recurrence_spec.1 ⟨2024, 1, 11⟩ [0, 2, 4] (by decide)

/-- C5: the monthly planner moves to the following calendar month, December
rolling over to January of the next year, with the day clamped by
`min day 28`; in particular 2024-01-31 yields 2024-02-28. -/
theorem monthly_recurrence_spec :
    (∀ base : Date, 1 ≤ base.month → base.month ≤ 12 →
      next_monthly base =
        ⟨(if base.month = 12 then base.year + 1 else base.year),
         (if base.month = 12 then 1 else base.month + 1),
         min base.day 28⟩) ∧
    next_occurrence "monthly" none ⟨2024, 1, 31⟩ = some ⟨2024, 2, 28⟩ := by
  constructor
  · intro base h1 h2
    by_cases h : base.month = 12
    · simp [next_monthly, h]
    · have h13 : ¬ base.month + 1 > 12 := by omega
      simp [next_monthly, h, h13]
  · decide

/-- Witness for `monthly_recurrence_spec` at base date 2024-01-31. -/
theorem monthly_recurrence_spec_witness :
    next_monthly ⟨2024, 1, 31⟩ =
      ⟨(if (⟨2024, 1, 31⟩ : Date).month = 12 then 2024 + 1 else 2024),
       (if (⟨2024, 1, 31⟩ : Date).month = 12 then 1 else (⟨2024, 1, 31⟩ : Date).month + 1),
       min (⟨2024, 1, 31⟩ : Date).day 28⟩ :=
  monthly_recurrence_spec.1 ⟨2024, 1, 31⟩ (by decide) (by decide)

/-- C10: for the recurrence types daily, weekly and monthly every computed
next occurrence is strictly later than the base date, so a recurrence chain
strictly advances and the base date itself is never regenerated. -/
theorem next_occurrence_advances :
    ∀ (t : String) (wd : Option String) (base next_due : Date),
      (t = "daily" ∨ t = "weekly" ∨ t = "monthly") →
      next_occurrence t wd base = some next_due →
      dateLt base next_due = true := by
  intro t wd base nd ht h
  rcases ht with rfl | rfl | rfl
  · rw [next_occurrence_daily, Option.some_inj] at h
    subst h
    exact dateLt_addDays base 1 (Nat.le_refl 1)
  · have hfall : dateLt base (addDays base 7) = true := dateLt_addDays base 7 (by omega)
    have hnext : ∀ ws : List Nat, dateLt base (weekly_next base ws) = true := by
      intro ws
      unfold weekly_next
      cases hscan : weekly_scan 7 (addDays base 1) ws with
      | none => exact hfall
      | some r =>
        obtain ⟨k, hk, hr⟩ := weekly_scan_mem hscan
        subst hr
        rw [← addDays_add]
        show dateLt base (addDays base (1 + k)) = true
        exact dateLt_addDays base (1 + k) (by omega)
    cases wd with
    | none =>
      rw [show next_occurrence "weekly" none base = some (addDays base 7) from rfl,
        Option.some_inj] at h
      subst h
      exact hfall
    | some s =>
      rw [show next_occurrence "weekly" (some s) base =
          (if s ≠ "" then
            (if parse_weekdays s ≠ [] then some (weekly_next base (parse_weekdays s))
             else some (addDays base 7))
           else some (addDays base 7)) from rfl] at h
      split at h
      · split at h
        · rw [Option.some_inj] at h
          subst h
          exact hnext _
        · rw [Option.some_inj] at h
          subst h
          exact hfall
      · rw [Option.some_inj] at h
        subst h
        exact hfall
  · rw [next_occurrence_monthly_eq, Option.some_inj] at h
    subst h
    exact dateLt_next_monthly base

/-! ### Scheduler branch lemmas -/

/-- The row update performed by `update_quest(quest_id, recurrence_type="none")`. -/
def clear_rec_row (quest_id : Nat) (now : String) (q : Quest) : Quest :=
  if q.id == quest_id then { q with recurrence_type := "none", updated_at := now } else q

theorem update_quest_clear_eq (st : Store) (quest_id : Nat) (now : String) :
    (update_quest st quest_id [("recurrence_type", FieldVal.vstr "none")] now).1 =
      st.map (clear_rec_row quest_id now) := rfl

theorem process_one_quest_cutoff (st : Store) (today : Date) (now : String) (q : Quest)
    (h : end_date_passed q.recurrence_end_date today = true) :
    process_one_quest st today now q = Except.ok st := by
  unfold process_one_quest
  rw [if_pos h]

theorem process_one_quest_no_next (st : Store) (today : Date) (now : String) (q : Quest)
    (hcut : end_date_passed q.recurrence_end_date today = false)
    (hn : next_occurrence q.recurrence_type q.recurrence_weekdays
      (q.due_date.getD today) = none) :
    process_one_quest st today now q = Except.ok st := by
  unfold process_one_quest
  rw [if_neg (by simp [hcut]), hn]

theorem process_one_quest_next (st : Store) (today : Date) (now : String) (q : Quest)
    (next_due : Date)
    (hcut : end_date_passed q.recurrence_end_date today = false)
    (hn : next_occurrence q.recurrence_type q.recurrence_weekdays
      (q.due_date.getD today) = some next_due) :
    process_one_quest st today now q = process_with_next st now q next_due := by
  unfold process_one_quest
  rw [if_neg (by simp [hcut]), hn]

theorem process_with_next_exceeds (st : Store) (now : String) (q : Quest) (next_due : Date)
    (hexc : next_exceeds_end q.recurrence_end_date next_due = true) :
    process_with_next st now q next_due =
      Except.ok (st.map (clear_rec_row q.id now)) := by
  unfold process_with_next
  rw [if_pos hexc, update_quest_clear_eq]

theorem process_with_next_dup (st : Store) (now : String) (q : Quest) (next_due : Date)
    (hexc : next_exceeds_end q.recurrence_end_date next_due = false)
    (hdup : count_parent_due st (q.parent_quest_id.getD q.id) next_due > 0) :
    process_with_next st now q next_due = Except.ok st := by
  unfold process_with_next
  rw [if_neg (by simp [hexc]), if_pos hdup]

theorem process_with_next_create (st : Store) (now : String) (q : Quest) (next_due : Date)
    (hexc : next_exceeds_end q.recurrence_end_date next_due = false)
    (hdup : ¬ count_parent_due st (q.parent_quest_id.getD q.id) next_due > 0) :
    process_with_next st now q next_due =
      (match create_quest st q.title q.description q.priority (some next_due)
          q.creator q.estimated_minutes q.recurrence_type q.recurrence_end_date
          (some (q.parent_quest_id.getD q.id)) q.recurrence_weekdays now with
       | Except.error e => Except.error e
       | Except.ok (st2, _) =>
         Except.ok (st2.map (clear_rec_row q.id now))) := by
  unfold process_with_next
  rw [if_neg (by simp [hexc]), if_neg hdup]
  rfl

/-! ### Claims about update_quest, change_status, accept -/

theorem update_quest_not_found (st : Store) (quest_id : Nat)
    (kwargs : List (String × FieldVal)) (now : String)
    (hid : ∀ q ∈ st, q.id ≠ quest_id) :
    update_quest st quest_id kwargs now = (st, false) := by
  unfold update_quest
  split
  · rfl
  · have hmap : List.map
        (fun q => if q.id == quest_id then
          applyFields q ((kwargs.filter (fun kv => allowed_fields.contains kv.fst)) ++
            [("updated_at", FieldVal.vstr now)]) else q) st = st := by
      have : ∀ q ∈ st, (if q.id == quest_id then
          applyFields q ((kwargs.filter (fun kv => allowed_fields.contains kv.fst)) ++
            [("updated_at", FieldVal.vstr now)]) else q) = id q := by
        intro q hq
        rw [if_neg (by simp [hid q hq])]
        rfl
      rw [List.map_congr_left this, List.map_id]
    have hany : st.any (fun q => q.id == quest_id) = false := by
      rw [List.any_eq_false]
      intro q hq
      simp [hid q hq]
    rw [hmap, hany]

/-- C8: a status transition addressed to a quest id that is not in storage
raises no exception, performs no write (the store is returned unchanged) and
reports the failure to the caller as the `false` (`rowcount = 0`) result —
the engine's `NotFound` outcome. -/
theorem change_status_not_found :
    ∀ (st : Store) (quest_id : Nat) (status now : String),
      (∀ q ∈ st, q.id ≠ quest_id) →
      valid_statuses.contains status = true →
      change_status st quest_id status now = Except.ok (st, false) := by
  intro st quest_id status now hid hval
  unfold change_status
  rw [if_pos hval, update_quest_not_found st quest_id _ now hid]

/-- A quest fixture used by concrete witnesses. -/
def sample_quest : Quest :=
  { id := 2, title := "sweep", description := "", status := "Backlog", priority := 3,
    due_date := some ⟨2024, 1, 10⟩, estimated_minutes := 30, assignee := none,
    creator := "ann", created_at := "2024-01-01 09:00:00",
    updated_at := "2024-01-01 09:00:00", recurrence_type := "none",
    recurrence_end_date := none, parent_quest_id := none, recurrence_weekdays := none }

/-- Witness for `change_status_not_found`: id 1 is absent from a store holding
only id 2. -/
theorem change_status_not_found_witness :
    change_status [sample_quest] 1 "Done" "2024-01-02 09:00:00" =
      Except.ok ([sample_quest], false) :=
  change_status_not_found [sample_quest] 1 "Done" "2024-01-02 09:00:00"
    (by decide) (by decide)

theorem setField_keeps_immutable (q : Quest) (name : String) (v : FieldVal)
    (h : name ∈ allowed_fields ∨ name = "updated_at") :
    (setField q name v).id = q.id ∧ (setField q name v).creator = q.creator ∧
    (setField q name v).created_at = q.created_at ∧
    (setField q name v).parent_quest_id = q.parent_quest_id := by
  rcases h with h | rfl
  · fin_cases h <;> (cases v <;> exact ⟨rfl, rfl, rfl, rfl⟩)
  · cases v <;> exact ⟨rfl, rfl, rfl, rfl⟩

theorem applyFields_keeps_immutable :
    ∀ (updates : List (String × FieldVal)) (q : Quest),
      (∀ kv ∈ updates, kv.fst ∈ allowed_fields ∨ kv.fst = "updated_at") →
      (applyFields q updates).id = q.id ∧ (applyFields q updates).creator = q.creator ∧
      (applyFields q updates).created_at = q.created_at ∧
      (applyFields q updates).parent_quest_id = q.parent_quest_id := by
  intro updates
  induction updates with
  | nil => intro q _; exact ⟨rfl, rfl, rfl, rfl⟩
  | cons kv rest ih =>
    intro q hmem
    have h1 := setField_keeps_immutable q kv.fst kv.snd (hmem kv (List.mem_cons_self _ _))
    have h2 := ih (setField q kv.fst kv.snd)
      (fun kv2 hk => hmem kv2 (List.mem_cons_of_mem _ hk))
    exact ⟨h2.1.trans h1.1, h2.2.1.trans h1.2.1, h2.2.2.1.trans h1.2.2.1,
      h2.2.2.2.trans h1.2.2.2⟩

/-- C9: no call to `update_quest` — with any keyword arguments, including the
calls made by `assign_quest` and `change_status` — ever modifies `id`,
`creator`, `created_at` or `parent_quest_id` of any stored quest: these are
exactly the columns missing from the whitelist (everything else plus
`updated_at` may change). -/
theorem update_quest_frame :
    ∀ (st : Store) (quest_id : Nat) (kwargs : List (String × FieldVal)) (now : String),
      List.Forall₂
        (fun q q2 => q2.id = q.id ∧ q2.creator = q.creator ∧
          q2.created_at = q.created_at ∧ q2.parent_quest_id = q.parent_quest_id)
        st (update_quest st quest_id kwargs now).1 := by
  intro st quest_id kwargs now
  unfold update_quest
  split
  · exact List.forall₂_same.2 (fun q _ => ⟨rfl, rfl, rfl, rfl⟩)
  · show List.Forall₂ _ st (List.map _ st)
    rw [List.forall₂_map_right_iff]
    refine List.forall₂_same.2 (fun q hq => ?_)
    by_cases h : (q.id == quest_id) = true
    · rw [if_pos h]
      apply applyFields_keeps_immutable
      intro kv hk
      rcases List.mem_append.1 hk with hk | hk
      · exact Or.inl (by simpa using List.of_mem_filter hk)
      · simp only [List.mem_singleton] at hk
        subst hk
        exact Or.inr rfl
    · rw [if_neg h]
      exact ⟨rfl, rfl, rfl, rfl⟩

theorem change_status_in_progress (st : Store) (quest_id : Nat) (now : String) :
    change_status st quest_id "In Progress" now =
      Except.ok (update_quest st quest_id [("status", FieldVal.vstr "In Progress")] now) := by
  unfold change_status
  rw [if_pos (by decide)]

/-- The system log row appended by the accept handler. -/
def accept_log_row (quest_id : Nat) (now : String) (nid : Nat) : Comment :=
  { id := nid, quest_id := quest_id, user := "System",
    content := "クエストを受注しました", file_path := none, log_type := "system",
    created_at := now }

theorem add_comment_accept_ok (cs : List Comment) (quest_id : Nat) (now : String) :
    add_comment cs quest_id "System" "クエストを受注しました" none "system" now =
      Except.ok (cs ++ [accept_log_row quest_id now (next_comment_id cs)],
        next_comment_id cs) := by
  unfold add_comment
  rw [if_neg (by decide), if_neg (by decide)]
  rfl

/-- C2: the accept handler succeeds exactly when the actor's fresh
`In Progress` count is strictly below the cap of 3; at or above the cap it
stops with the capacity error (the spec's `CapacityExceeded`) before any
storage call, so quest status and assignee are untouched (the `Except.error`
branch performs no write). -/
theorem accept_capacity_rule :
    ∀ (st : DBState) (quest_id : Nat) (username now : String),
      (MAX_ACTIVE_QUESTS ≤ get_active_quest_count st.quests username →
        accept_quest st quest_id username now = Except.error capacity_error_message) ∧
      (get_active_quest_count st.quests username < MAX_ACTIVE_QUESTS →
        ∃ st2 : DBState, accept_quest st quest_id username now = Except.ok st2) := by
  intro st quest_id username now
  constructor
  · intro hge
    unfold accept_quest
    rw [if_pos hge]
  · intro hlt
    unfold accept_quest
    rw [if_neg (by omega), change_status_in_progress, add_comment_accept_ok]
    exact ⟨_, rfl⟩

/-- A quest in progress for the actor `bob`, used by the capacity witness. -/
def busy_quest (i : Nat) : Quest :=
  { id := i, title := "task", description := "", status := "In Progress", priority := 3,
    due_date := none, estimated_minutes := 30, assignee := some "bob",
    creator := "ann", created_at := "2024-01-01 09:00:00",
    updated_at := "2024-01-01 09:00:00", recurrence_type := "none",
    recurrence_end_date := none, parent_quest_id := none, recurrence_weekdays := none }

/-- A database state in which `bob` already has three quests in progress and a
fourth Backlog quest (id 4) is on offer. -/
def full_board : DBState :=
  ⟨[busy_quest 1, busy_quest 2, busy_quest 3, sample_quest], []⟩

/-- Witness for `accept_capacity_rule`: the fourth accept by `bob` fails with
the capacity error. -/
theorem accept_capacity_rule_witness :
    accept_quest full_board 4 "bob" "2024-01-02 09:00:00" =
      Except.error capacity_error_message :=
  (accept_capacity_rule full_board 4 "bob" "2024-01-02 09:00:00").1 (by decide)

/-- C6: when the scheduler reaches the planner (the cutoff did not fire) and
the computed next occurrence is strictly past the recurrence end date, no
successor quest is created (the store keeps its length, only rows are
rewritten) and the recurrence rule of the source quest instance is cleared. -/
theorem scheduler_end_date_stops_chain :
    ∀ (st : Store) (today : Date) (now : String) (q : Quest) (ed next_due : Date),
      end_date_passed q.recurrence_end_date today = false →
      q.recurrence_end_date = some ed →
      next_occurrence q.recurrence_type q.recurrence_weekdays
        (q.due_date.getD today) = some next_due →
      dateLt ed next_due = true →
      process_one_quest st today now q = Except.ok (st.map (clear_rec_row q.id now)) ∧
      (st.map (clear_rec_row q.id now)).length = st.length ∧
      ∀ r ∈ st.map (clear_rec_row q.id now), r.id = q.id → r.recurrence_type = "none" := by
  intro st today now q ed next_due hcut hred hn hlt
  refine ⟨?_, List.length_map st _, ?_⟩
  · rw [process_one_quest_next st today now q next_due hcut hn]
    apply process_with_next_exceeds
    rw [hred]
    exact hlt
  · intro r hr hid
    rcases List.mem_map.1 hr with ⟨r0, hr0, hclear⟩
    subst hclear
    unfold clear_rec_row at hid ⊢
    by_cases h : (r0.id == q.id) = true
    · rw [if_pos h]
    · rw [if_neg h] at hid ⊢
      exact absurd (by simp [hid]) h

/-- A completed daily quest whose next occurrence 2024-01-12 exceeds its
recurrence end date 2024-01-10. -/
def ending_quest : Quest :=
  { id := 1, title := "daily report", description := "", status := "Done", priority := 3,
    due_date := some ⟨2024, 1, 11⟩, estimated_minutes := 30, assignee := some "bob",
    creator := "ann", created_at := "2024-01-01 09:00:00",
    updated_at := "2024-01-01 09:00:00", recurrence_type := "daily",
    recurrence_end_date := some ⟨2024, 1, 10⟩, parent_quest_id := none,
    recurrence_weekdays := none }

/-- Witness for `scheduler_end_date_stops_chain`: end date 2024-01-10,
computed next occurrence 2024-01-12, evaluation date 2024-01-10. -/
theorem scheduler_end_date_stops_chain_witness :
    process_one_quest [ending_quest] ⟨2024, 1, 10⟩ "2024-01-10 09:00:00" ending_quest =
      Except.ok ([ending_quest].map (clear_rec_row ending_quest.id "2024-01-10 09:00:00")) :=
  (scheduler_end_date_stops_chain [ending_quest] ⟨2024, 1, 10⟩ "2024-01-10 09:00:00"
    ending_quest ⟨2024, 1, 10⟩ ⟨2024, 1, 12⟩ (by decide) (by decide) (by decide) (by decide)).1

/-- A completed daily quest whose recurrence end date 2024-01-01 lies strictly
before the evaluation date used below. -/
def expired_quest : Quest :=
  { id := 1, title := "standup", description := "", status := "Done", priority := 3,
    due_date := some ⟨2024, 1, 5⟩, estimated_minutes := 30, assignee := some "bob",
    creator := "ann", created_at := "2023-12-01 09:00:00",
    updated_at := "2023-12-01 09:00:00", recurrence_type := "daily",
    recurrence_end_date := some ⟨2024, 1, 1⟩, parent_quest_id := none,
    recurrence_weekdays := none }

/-- Counterexample to C7: `expired_quest` is Done, recurring, and its end date
2024-01-01 lies strictly before the evaluation date 2024-06-01, yet the
scheduler returns the store completely unchanged — in particular the
recurrence type is still `daily`, not cleared to `none` as the claim states. -/
theorem scheduler_expired_not_cleared_cex :
    expired_quest.status = "Done" ∧
    expired_quest.recurrence_type = "daily" ∧
    expired_quest.recurrence_end_date = some ⟨2024, 1, 1⟩ ∧
    dateLt ⟨2024, 1, 1⟩ ⟨2024, 6, 1⟩ = true ∧
    process_recurring_quests [expired_quest] ⟨2024, 6, 1⟩ "2024-06-01 09:00:00" =
      Except.ok [expired_quest] := by
  exact ⟨rfl, rfl, rfl, by decide, by decide⟩

/-- C7 as amended: for a recurring Done quest whose end date is strictly
earlier than the evaluation date, the scheduler creates no new quest and skips
the quest entirely, leaving the store — including the quest's recurrence
rule — unchanged (the rule is not cleared). -/
theorem scheduler_expired_rule_skips :
    ∀ (st : Store) (today : Date) (now : String) (q : Quest) (ed : Date),
      q.recurrence_end_date = some ed →
      dateLt ed today = true →
      process_one_quest st today now q = Except.ok st := by
  intro st today now q ed hred hlt
  apply process_one_quest_cutoff
  rw [hred]
  exact hlt

/-- Witness for `scheduler_expired_rule_skips` at the counterexample's data. -/
theorem scheduler_expired_rule_skips_witness :
    process_one_quest [expired_quest] ⟨2024, 6, 1⟩ "2024-06-01 09:00:00" expired_quest =
      Except.ok [expired_quest] :=
  scheduler_expired_rule_skips [expired_quest] ⟨2024, 6, 1⟩ "2024-06-01 09:00:00"
    expired_quest ⟨2024, 1, 1⟩ (by decide) (by decide)

/-- Witness for `next_occurrence_advances`: daily recurrence over 2024-01-10
computes 2024-01-11, strictly later. -/
theorem next_occurrence_advances_witness :
    dateLt ⟨2024, 1, 10⟩ ⟨2024, 1, 11⟩ = true :=
  next_occurrence_advances "daily" none ⟨2024, 1, 10⟩ ⟨2024, 1, 11⟩
    (Or.inl rfl) (by decide)

/-! ### Store evolution under the scheduler (for the idempotence claim) -/

theorem bool_ne_true {b : Bool} (h : ¬ b = true) : b = false := by
  cases b
  · rfl
  · exact absurd rfl h

/-- How a single quest row can change across a scheduler run: every column the
scheduler reads is untouched except that the recurrence type may have been
cleared to `none` (`updated_at` may change freely). -/
structure QuestEvol (q q2 : Quest) : Prop where
  id : q2.id = q.id
  status : q2.status = q.status
  due_date : q2.due_date = q.due_date
  recurrence_end_date : q2.recurrence_end_date = q.recurrence_end_date
  parent_quest_id : q2.parent_quest_id = q.parent_quest_id
  recurrence_weekdays : q2.recurrence_weekdays = q.recurrence_weekdays
  rec_type : q2.recurrence_type = q.recurrence_type ∨ q2.recurrence_type = "none"

theorem questEvol_refl (q : Quest) : QuestEvol q q :=
  ⟨rfl, rfl, rfl, rfl, rfl, rfl, Or.inl rfl⟩

theorem questEvol_trans {a b c : Quest} (h1 : QuestEvol a b) (h2 : QuestEvol b c) :
    QuestEvol a c where
  id := h2.id.trans h1.id
  status := h2.status.trans h1.status
  due_date := h2.due_date.trans h1.due_date
  recurrence_end_date := h2.recurrence_end_date.trans h1.recurrence_end_date
  parent_quest_id := h2.parent_quest_id.trans h1.parent_quest_id
  recurrence_weekdays := h2.recurrence_weekdays.trans h1.recurrence_weekdays
  rec_type := by
    rcases h2.rec_type with h | h
    · rcases h1.rec_type with h0 | h0
      · exact Or.inl (h.trans h0)
      · exact Or.inr (h.trans h0)
    · exact Or.inr h

/-- How the whole store can change across scheduler steps: existing rows
evolve by `QuestEvol`, new rows are Backlog rows, the duplicate-detection
count never decreases, and distinctness of ids is preserved. -/
structure StoreEvol (st st2 : Store) : Prop where
  fwd : ∀ q ∈ st, ∃ q2 ∈ st2, QuestEvol q q2
  bwd : ∀ q2 ∈ st2, (∃ q ∈ st, QuestEvol q q2) ∨ q2.status = "Backlog"
  count_mono : ∀ p d, count_parent_due st p d ≤ count_parent_due st2 p d
  nodup : (st.map Quest.id).Nodup → (st2.map Quest.id).Nodup

theorem storeEvol_refl (st : Store) : StoreEvol st st where
  fwd := fun q hq => ⟨q, hq, questEvol_refl q⟩
  bwd := fun q2 hq2 => Or.inl ⟨q2, hq2, questEvol_refl q2⟩
  count_mono := fun _ _ => Nat.le_refl _
  nodup := fun h => h

theorem storeEvol_trans {a b c : Store} (h1 : StoreEvol a b) (h2 : StoreEvol b c) :
    StoreEvol a c where
  fwd := fun q hq => by
    obtain ⟨q2, hq2, e1⟩ := h1.fwd q hq
    obtain ⟨q3, hq3, e2⟩ := h2.fwd q2 hq2
    exact ⟨q3, hq3, questEvol_trans e1 e2⟩
  bwd := fun q3 hq3 => by
    rcases h2.bwd q3 hq3 with ⟨q2, hq2, e2⟩ | hb
    · rcases h1.bwd q2 hq2 with ⟨q, hq, e1⟩ | hb2
      · exact Or.inl ⟨q, hq, questEvol_trans e1 e2⟩
      · exact Or.inr (e2.status.trans hb2)
    · exact Or.inr hb
  count_mono := fun p d => Nat.le_trans (h1.count_mono p d) (h2.count_mono p d)
  nodup := fun h => h2.nodup (h1.nodup h)

theorem clear_rec_row_evol (quest_id : Nat) (now : String) (q : Quest) :
    QuestEvol q (clear_rec_row quest_id now q) := by
  unfold clear_rec_row
  by_cases h : (q.id == quest_id) = true
  · rw [if_pos h]
    exact ⟨rfl, rfl, rfl, rfl, rfl, rfl, Or.inr rfl⟩
  · rw [if_neg h]
    exact questEvol_refl q

theorem clear_rec_row_id (quest_id : Nat) (now : String) (q : Quest) :
    (clear_rec_row quest_id now q).id = q.id := by
  unfold clear_rec_row
  by_cases h : (q.id == quest_id) = true
  · rw [if_pos h]
  · rw [if_neg h]

theorem clear_rec_row_count_pred (p : Nat) (d : Date) (quest_id : Nat) (now : String)
    (q : Quest) :
    ((clear_rec_row quest_id now q).parent_quest_id == some p &&
      (clear_rec_row quest_id now q).due_date == some d) =
    (q.parent_quest_id == some p && q.due_date == some d) := by
  unfold clear_rec_row
  by_cases h : (q.id == quest_id) = true
  · rw [if_pos h]
  · rw [if_neg h]

theorem clear_store_evol (st : Store) (quest_id : Nat) (now : String) :
    StoreEvol st (st.map (clear_rec_row quest_id now)) where
  fwd := fun q hq =>
    ⟨clear_rec_row quest_id now q, List.mem_map_of_mem _ hq, clear_rec_row_evol quest_id now q⟩
  bwd := fun q2 hq2 => by
    rcases List.mem_map.1 hq2 with ⟨q, hq, heq⟩
    exact Or.inl ⟨q, hq, heq ▸ clear_rec_row_evol quest_id now q⟩
  count_mono := fun p d => by
    unfold count_parent_due
    rw [List.countP_map]
    apply Nat.le_of_eq
    apply List.countP_congr
    intro q _
    simp only [Function.comp_apply, clear_rec_row_count_pred p d quest_id now q]
  nodup := fun h => by
    rw [List.map_map]
    have hfun : (Quest.id ∘ clear_rec_row quest_id now) = Quest.id := by
      funext q
      exact clear_rec_row_id quest_id now q
    rw [hfun]
    exact h

theorem append_evol (st : Store) (nq : Quest) (hstatus : nq.status = "Backlog")
    (hfresh : nq.id ∉ st.map Quest.id) : StoreEvol st (st ++ [nq]) where
  fwd := fun q hq => ⟨q, List.mem_append_left _ hq, questEvol_refl q⟩
  bwd := fun q2 hq2 => by
    rcases List.mem_append.1 hq2 with h | h
    · exact Or.inl ⟨q2, h, questEvol_refl q2⟩
    · rw [List.mem_singleton] at h
      exact Or.inr (h ▸ hstatus)
  count_mono := fun p d => by
    unfold count_parent_due
    rw [List.countP_append]
    omega
  nodup := fun h => by
    rw [List.map_append, List.nodup_append_comm]
    exact List.nodup_cons.2 ⟨hfresh, h⟩

theorem le_foldr_max (l : List Nat) : ∀ x ∈ l, x ≤ l.foldr max 0 := by
  induction l with
  | nil => intro x hx; exact absurd hx (List.not_mem_nil x)
  | cons a t ih =>
    intro x hx
    rcases List.mem_cons.1 hx with rfl | hx
    · exact Nat.le_max_left _ _
    · exact Nat.le_trans (ih x hx) (Nat.le_max_right _ _)

theorem next_id_fresh (st : Store) : next_id st ∉ st.map Quest.id := by
  intro hmem
  have h := le_foldr_max (st.map Quest.id) _ hmem
  unfold next_id at h
  omega

theorem create_quest_ok_shape (st : Store) (title description : String) (priority : Int)
    (due_date : Option Date) (creator : String) (estimated_minutes : Int)
    (recurrence_type : String) (recurrence_end_date : Option Date)
    (parent_quest_id : Option Nat) (recurrence_weekdays : Option String)
    (now : String) (st2 : Store) (nid : Nat)
    (h : create_quest st title description priority due_date creator estimated_minutes
      recurrence_type recurrence_end_date parent_quest_id recurrence_weekdays now =
      Except.ok (st2, nid)) :
    ∃ nq : Quest, st2 = st ++ [nq] ∧ nq.status = "Backlog" ∧ nq.id = next_id st := by
  unfold create_quest at h
  split at h
  · exact Except.noConfusion h
  · split at h
    · exact Except.noConfusion h
    · have hp := Except.ok.inj h
      rw [Prod.ext_iff] at hp
      exact ⟨_, hp.1.symm, rfl, rfl⟩

theorem process_one_quest_evol (st st2 : Store) (today : Date) (now : String) (q : Quest)
    (h : process_one_quest st today now q = Except.ok st2) : StoreEvol st st2 := by
  by_cases hcut : end_date_passed q.recurrence_end_date today = true
  · rw [process_one_quest_cutoff st today now q hcut] at h
    obtain rfl := Except.ok.inj h
    exact storeEvol_refl st
  · have hcut2 := bool_ne_true hcut
    cases hn : next_occurrence q.recurrence_type q.recurrence_weekdays
        (q.due_date.getD today) with
    | none =>
      rw [process_one_quest_no_next st today now q hcut2 hn] at h
      obtain rfl := Except.ok.inj h
      exact storeEvol_refl st
    | some next_due =>
      rw [process_one_quest_next st today now q next_due hcut2 hn] at h
      by_cases hexc : next_exceeds_end q.recurrence_end_date next_due = true
      · rw [process_with_next_exceeds st now q next_due hexc] at h
        obtain rfl := Except.ok.inj h
        exact clear_store_evol st q.id now
      · have hexc2 := bool_ne_true hexc
        by_cases hdup : count_parent_due st (q.parent_quest_id.getD q.id) next_due > 0
        · rw [process_with_next_dup st now q next_due hexc2 hdup] at h
          obtain rfl := Except.ok.inj h
          exact storeEvol_refl st
        · rw [process_with_next_create st now q next_due hexc2 hdup] at h
          cases hc : create_quest st q.title q.description q.priority (some next_due)
              q.creator q.estimated_minutes q.recurrence_type q.recurrence_end_date
              (some (q.parent_quest_id.getD q.id)) q.recurrence_weekdays now with
          | error e =>
            rw [hc] at h
            exact Except.noConfusion h
          | ok p =>
            obtain ⟨sta, nid⟩ := p
            rw [hc] at h
            obtain rfl := Except.ok.inj h
            obtain ⟨nq, rfl, hbst, hid⟩ :=
              create_quest_ok_shape st q.title q.description q.priority (some next_due)
                q.creator q.estimated_minutes q.recurrence_type q.recurrence_end_date
                (some (q.parent_quest_id.getD q.id)) q.recurrence_weekdays now sta nid hc
            exact storeEvol_trans
              (append_evol st nq hbst (hid ▸ next_id_fresh st))
              (clear_store_evol (st ++ [nq]) q.id now)

theorem run_loop_evol (today : Date) (now : String) :
    ∀ (l : List Quest) (st st2 : Store),
      run_scheduler_loop today now st l = Except.ok st2 → StoreEvol st st2 := by
  intro l
  induction l with
  | nil =>
    intro st st2 h
    obtain rfl := Except.ok.inj h
    exact storeEvol_refl st
  | cons q rest ih =>
    intro st st2 h
    unfold run_scheduler_loop at h
    cases hp : process_one_quest st today now q with
    | error e =>
      rw [hp] at h
      exact Except.noConfusion h
    | ok stm =>
      rw [hp] at h
      exact storeEvol_trans (process_one_quest_evol st stm today now q hp) (ih stm st2 h)

theorem run_loop_elt (today : Date) (now : String) :
    ∀ (l : List Quest) (st st2 : Store),
      run_scheduler_loop today now st l = Except.ok st2 →
      ∀ q ∈ l, ∃ stq stq2, process_one_quest stq today now q = Except.ok stq2 ∧
        StoreEvol st stq ∧ StoreEvol stq2 st2 := by
  intro l
  induction l with
  | nil =>
    intro st st2 _ q hq
    exact absurd hq (List.not_mem_nil q)
  | cons qh rest ih =>
    intro st st2 h q hq
    unfold run_scheduler_loop at h
    cases hp : process_one_quest st today now qh with
    | error e =>
      rw [hp] at h
      exact Except.noConfusion h
    | ok stm =>
      rw [hp] at h
      rcases List.mem_cons.1 hq with rfl | hx
      · exact ⟨st, stm, hp, storeEvol_refl st, run_loop_evol today now rest stm st2 h⟩
      · obtain ⟨stq, stq2, ha, hb, hcv⟩ := ih stm st2 h q hx
        exact ⟨stq, stq2, ha,
          storeEvol_trans (process_one_quest_evol st stm today now qh hp) hb, hcv⟩

theorem run_loop_noop (today : Date) (now : String) :
    ∀ (l : List Quest) (st : Store),
      (∀ q ∈ l, process_one_quest st today now q = Except.ok st) →
      run_scheduler_loop today now st l = Except.ok st := by
  intro l
  induction l with
  | nil => intro st _; rfl
  | cons q rest ih =>
    intro st h
    unfold run_scheduler_loop
    rw [h q (List.mem_cons_self q rest)]
    exact ih st (fun r hr => h r (List.mem_cons_of_mem q hr))

theorem clear_store_has_cleared (st : Store) (quest_id : Nat) (now : String)
    (h : ∃ r ∈ st, r.id = quest_id) :
    ∃ r2 ∈ st.map (clear_rec_row quest_id now),
      r2.id = quest_id ∧ r2.recurrence_type = "none" := by
  obtain ⟨r, hr, hid⟩ := h
  refine ⟨clear_rec_row quest_id now r, List.mem_map_of_mem _ hr, ?_, ?_⟩
  · simp [clear_rec_row, hid]
  · simp [clear_rec_row, hid]

theorem cleared_contradiction (st1 : Store) (hnd1 : (st1.map Quest.id).Nodup)
    (q1 : Quest) (hq1mem : q1 ∈ st1) (hrt1 : q1.recurrence_type ≠ "none")
    (stmid : Store)
    (hmid : ∃ r ∈ stmid, r.id = q1.id ∧ r.recurrence_type = "none")
    (hev : StoreEvol stmid st1) : False := by
  obtain ⟨r2, hr2, hr2id, hr2rt⟩ := hmid
  obtain ⟨r3, hr3, hr3e⟩ := hev.fwd r2 hr2
  have hr3id : r3.id = q1.id := hr3e.id.trans hr2id
  have hr3rt : r3.recurrence_type = "none" := by
    rcases hr3e.rec_type with h | h
    · exact h.trans hr2rt
    · exact h
  have heq : q1 = r3 := List.inj_on_of_nodup_map hnd1 hq1mem hr3 hr3id.symm
  exact hrt1 (heq ▸ hr3rt)

/-- C1: running the scheduler a second time over the store produced by a first
run — same evaluation date, no intervening state change — is a complete
no-op: the first run has either cleared each processed quest's rule or left a
blocking duplicate behind, so the second run creates no successor for any
`(parentQuestId, dueDate)` pair (it returns the store unchanged).  The
hypothesis that ids are distinct is the primary-key property of storage. -/
theorem scheduler_idempotent :
    ∀ (st st1 : Store) (today : Date) (now now2 : String),
      (st.map Quest.id).Nodup →
      process_recurring_quests st today now = Except.ok st1 →
      process_recurring_quests st1 today now2 = Except.ok st1 := by
  intro st st1 today now now2 hnd h1
  unfold process_recurring_quests at h1 ⊢
  have hev : StoreEvol st st1 := run_loop_evol today now _ st st1 h1
  have hnd1 : (st1.map Quest.id).Nodup := hev.nodup hnd
  apply run_loop_noop
  intro q1 hq1
  have hq1mem : q1 ∈ st1 := List.mem_of_mem_filter hq1
  have hP := List.of_mem_filter hq1
  rw [Bool.and_eq_true] at hP
  have hst : q1.status = "Done" := by simpa using hP.1
  have hrt1 : q1.recurrence_type ≠ "none" := by simpa using hP.2
  rcases hev.bwd q1 hq1mem with ⟨q, hqmem, hqe⟩ | hback
  swap
  · rw [hback] at hst
    exact absurd hst (by decide)
  have hrteq : q1.recurrence_type = q.recurrence_type := hqe.rec_type.resolve_right hrt1
  have hqrt : q.recurrence_type ≠ "none" := hrteq ▸ hrt1
  have hqst : q.status = "Done" := hqe.status.symm.trans hst
  have hqsnap : q ∈ st.filter (fun r => r.status == "Done" && r.recurrence_type != "none") := by
    refine List.mem_filter.2 ⟨hqmem, ?_⟩
    rw [Bool.and_eq_true]
    exact ⟨by simp [hqst], by simp [hqrt]⟩
  obtain ⟨stq, stq2, hstep, hev1, hev2⟩ := run_loop_elt today now _ st st1 h1 q hqsnap
  by_cases hcut : end_date_passed q.recurrence_end_date today = true
  · apply process_one_quest_cutoff
    rw [hqe.recurrence_end_date]
    exact hcut
  · have hcut2 := bool_ne_true hcut
    have hcut1 : end_date_passed q1.recurrence_end_date today = false := by
      rw [hqe.recurrence_end_date]
      exact hcut2
    cases hn : next_occurrence q.recurrence_type q.recurrence_weekdays
        (q.due_date.getD today) with
    | none =>
      apply process_one_quest_no_next st1 today now2 q1 hcut1
      rw [hrteq, hqe.recurrence_weekdays, hqe.due_date]
      exact hn
    | some next_due =>
      have hn1 : next_occurrence q1.recurrence_type q1.recurrence_weekdays
          (q1.due_date.getD today) = some next_due := by
        rw [hrteq, hqe.recurrence_weekdays, hqe.due_date]
        exact hn
      rw [process_one_quest_next stq today now q next_due hcut2 hn] at hstep
      by_cases hexc : next_exceeds_end q.recurrence_end_date next_due = true
      · exfalso
        rw [process_with_next_exceeds stq now q next_due hexc] at hstep
        obtain rfl := Except.ok.inj hstep
        obtain ⟨qi, hqi, hqie⟩ := hev1.fwd q hqmem
        apply cleared_contradiction st1 hnd1 q1 hq1mem hrt1 (stq.map (clear_rec_row q.id now))
          ?_ hev2
        obtain ⟨r2, hr2, hr2id, hr2rt⟩ :=
          clear_store_has_cleared stq q.id now ⟨qi, hqi, hqie.id⟩
        exact ⟨r2, hr2, hr2id.trans hqe.id.symm, hr2rt⟩
      · have hexc2 := bool_ne_true hexc
        by_cases hdup : count_parent_due stq (q.parent_quest_id.getD q.id) next_due > 0
        · rw [process_with_next_dup stq now q next_due hexc2 hdup] at hstep
          obtain rfl := Except.ok.inj hstep
          have hcount : count_parent_due st1 (q.parent_quest_id.getD q.id) next_due > 0 :=
            Nat.lt_of_lt_of_le hdup (hev2.count_mono _ _)
          rw [process_one_quest_next st1 today now2 q1 next_due hcut1 hn1]
          apply process_with_next_dup
          · rw [hqe.recurrence_end_date]
            exact hexc2
          · rw [hqe.parent_quest_id, hqe.id]
            exact hcount
        · exfalso
          rw [process_with_next_create stq now q next_due hexc2 hdup] at hstep
          cases hc : create_quest stq q.title q.description q.priority (some next_due)
              q.creator q.estimated_minutes q.recurrence_type q.recurrence_end_date
              (some (q.parent_quest_id.getD q.id)) q.recurrence_weekdays now with
          | error e =>
            rw [hc] at hstep
            exact Except.noConfusion hstep
          | ok p =>
            obtain ⟨sta, nid⟩ := p
            rw [hc] at hstep
            obtain rfl := Except.ok.inj hstep
            obtain ⟨nq, rfl, hbst, hid⟩ :=
              create_quest_ok_shape stq q.title q.description q.priority (some next_due)
                q.creator q.estimated_minutes q.recurrence_type q.recurrence_end_date
                (some (q.parent_quest_id.getD q.id)) q.recurrence_weekdays now sta nid hc
            obtain ⟨qi, hqi, hqie⟩ := hev1.fwd q hqmem
            apply cleared_contradiction st1 hnd1 q1 hq1mem hrt1
              ((stq ++ [nq]).map (clear_rec_row q.id now)) ?_ hev2
            obtain ⟨r2, hr2, hr2id, hr2rt⟩ :=
              clear_store_has_cleared (stq ++ [nq]) q.id now
                ⟨qi, List.mem_append_left _ hqi, hqie.id⟩
            exact ⟨r2, hr2, hr2id.trans hqe.id.symm, hr2rt⟩

/-- A completed daily quest with no end date, the seed of the witness below. -/
def recurring_done_quest : Quest :=
  { id := 1, title := "daily report", description := "", status := "Done", priority := 3,
    due_date := some ⟨2024, 1, 10⟩, estimated_minutes := 30, assignee := some "bob",
    creator := "ann", created_at := "2024-01-01 09:00:00",
    updated_at := "2024-01-10 20:00:00", recurrence_type := "daily",
    recurrence_end_date := none, parent_quest_id := none, recurrence_weekdays := none }

/-- The store after the first scheduler run over `recurring_done_quest`: the
source's rule is cleared and one successor for `(parent 1, due 2024-01-11)`
exists. -/
def first_run_store : Store :=
  [{ recurring_done_quest with
      recurrence_type := "none", updated_at := "2024-01-10 21:00:00" },
   { id := 2, title := "daily report", description := "", status := "Backlog", priority := 3,
     due_date := some ⟨2024, 1, 11⟩, estimated_minutes := 30, assignee := none,
     creator := "ann", created_at := "2024-01-10 21:00:00",
     updated_at := "2024-01-10 21:00:00", recurrence_type := "daily",
     recurrence_end_date := none, parent_quest_id := some 1,
     recurrence_weekdays := none }]

/-- Witness for `scheduler_idempotent`: the first run generates exactly the
successor in `first_run_store`; the second run returns that store unchanged. -/
theorem scheduler_idempotent_witness :
    process_recurring_quests first_run_store ⟨2024, 1, 10⟩ "2024-01-11 09:00:00" =
      Except.ok first_run_store :=
  scheduler_idempotent [recurring_done_quest] first_run_store ⟨2024, 1, 10⟩
    "2024-01-10 21:00:00" "2024-01-11 09:00:00" (by decide) (by rfl)
